import Mathlib

/-!
Verification of the ezmesh/ezos offline-map archive compiler
(`src/tools/maps`): the RLE codec and 3-bit packer (`process.py`), the
TDMAP archive writer/reader (`archive.py`), the checkpointed, deduplicating
orchestrator (`pmtiles_to_tdmap.py`), and the current-version (v4) label
format declared by `config.py`.

Bytes are modelled as `Nat` values (< 256 where it matters); byte strings
as `List Nat`.  Python's unbounded ints are `Nat`/`Int`; fallible paths
return `Except`/`Option`.  Python's stable `list.sort` is modelled by the
stable `List.insertionSort`.

The file is organised as definitions first, then theorems.
-/

namespace TDMap

/-! ## Definitions: RLE codec (`src/tools/maps/process.py`, `rle_compress` / `rle_decompress`) -/

/-- Length of the run of elements equal to `b` at the head of the list:
the number of iterations of the inner `while` of `rle_compress` before the
cap is applied. -/
def takeRun (b : Nat) : List Nat → Nat
  | [] => 0
  | x :: xs => if x = b then takeRun b xs + 1 else 0

/-- Embeds `rle_compress` (process.py lines 127-168).  For each maximal run
of `count = k + 1` equal bytes (capped at 255 by the `count < 255` loop
guard, hence `k ≤ 254`): emit `[0xFF, count, byte]` when `count > 2` or the
byte is the escape byte `0xFF`, `[byte, byte]` when `count = 2`, and the
bare byte when `count = 1`. -/
def rle_compress : List Nat → List Nat
  | [] => []
  | b :: rest =>
    let k := min (takeRun b rest) 254
    let count := k + 1
    (if 2 < count ∨ b = 255 then [255, count, b]
     else if count = 2 then [b, b]
     else [b]) ++ rle_compress (rest.drop k)
termination_by l => l.length
decreasing_by simp [List.length_drop]; omega

/-- Embeds `rle_decompress` (process.py lines 171-194).  A `0xFF` byte with
at least two bytes following it (`i + 2 < len(data)`) starts an escape
triplet `[0xFF, count, value]` expanded to `count` copies of `value`; any
other byte is copied literally. -/
def rle_decompress : List Nat → List Nat
  | [] => []
  | 255 :: c :: v :: rest => List.replicate c v ++ rle_decompress rest
  | x :: rest => x :: rle_decompress rest

/-! ## Definitions: 3-bit packing (`src/tools/maps/process.py`, `pack_3bit_pixels`) -/

/-- Body of the `for i in range(0, len(indices), 8)` loop of
`pack_3bit_pixels`: each group of 8 values (masked with `& 0x07`) is packed
into three bytes `b0, b1, b2` exactly as in the source.  The input is
already padded to a multiple of 8, so the ragged fallback (which would be
an index error in the source) is unreachable. -/
def pack_3bit_groups : List Nat → List Nat
  | p0 :: p1 :: p2 :: p3 :: p4 :: p5 :: p6 :: p7 :: rest =>
    let q0 := p0 &&& 0x07
    let q1 := p1 &&& 0x07
    let q2 := p2 &&& 0x07
    let q3 := p3 &&& 0x07
    let q4 := p4 &&& 0x07
    let q5 := p5 &&& 0x07
    let q6 := p6 &&& 0x07
    let q7 := p7 &&& 0x07
    let b0 := q0 ||| (q1 <<< 3) ||| ((q2 &&& 0x03) <<< 6)
    let b1 := ((q2 >>> 2) &&& 0x01) ||| (q3 <<< 1) ||| (q4 <<< 4) ||| ((q5 &&& 0x01) <<< 7)
    let b2 := ((q5 >>> 1) &&& 0x03) ||| (q6 <<< 2) ||| (q7 <<< 5)
    b0 :: b1 :: b2 :: pack_3bit_groups rest
  | _ => []

/-- Embeds `pack_3bit_pixels` (process.py lines 91-124): a length not a
multiple of 8 is zero-padded (`indices + [0] * (8 - len % 8)`), then each
group of 8 3-bit values is packed into 3 bytes. -/
def pack_3bit_pixels (indices : List Nat) : List Nat :=
  if indices.length % 8 = 0 then pack_3bit_groups indices
  else pack_3bit_groups (indices ++ List.replicate (8 - indices.length % 8) 0)

/-- Definition taken from the spec's words, for comparison with
`pack_3bit_pixels`: under the sequential 3-bit little-endian layout, value
`k` of a group occupies bits `3k..3k+2` of the 24-bit group value
`b0 + 256*b1 + 65536*b2`, i.e. value `k` is `N / 8^k % 8`. -/
def unpack_3bit_groups : List Nat → List Nat
  | b0 :: b1 :: b2 :: rest =>
    let n := b0 + 256 * b1 + 65536 * b2
    (n % 8) :: (n / 8 % 8) :: (n / 64 % 8) :: (n / 512 % 8) ::
      (n / 4096 % 8) :: (n / 32768 % 8) :: (n / 262144 % 8) :: (n / 2097152 % 8) ::
      unpack_3bit_groups rest
  | _ => []

/-! ## Definitions: configuration (`src/tools/maps/config.py`) -/

/-- Embeds `rgb_to_rgb565` (config.py lines 54-59). -/
def rgb_to_rgb565 (r g b : Nat) : Nat :=
  (((r >>> 3) &&& 0x1F) <<< 11) ||| (((g >>> 2) &&& 0x3F) <<< 5) ||| ((b >>> 3) &&& 0x1F)

/-- Embeds `PALETTE_RGB` (config.py lines 42-51). -/
def PALETTE_RGB : List (Nat × Nat × Nat) :=
  [(255, 255, 255), (160, 208, 240), (200, 230, 200), (208, 208, 208),
   (136, 136, 136), (96, 96, 96), (64, 64, 64), (48, 48, 48)]

/-- Embeds `PALETTE_RGB565` (config.py line 63). -/
def PALETTE_RGB565 : List Nat := PALETTE_RGB.map fun c => rgb_to_rgb565 c.1 c.2.1 c.2.2

/-- Embeds `TILE_SIZE` (config.py line 66). -/
def TILE_SIZE : Nat := 256

/-- Embeds `TDMAP_VERSION` (config.py line 69): the archive format version
the writer stamps; the source comment reads
"v4: geographic labels with lat/lon, no tile index, deduped". -/
def TDMAP_VERSION : Nat := 4

/-- Embeds `COMPRESSION_RLE` (config.py line 72). -/
def COMPRESSION_RLE : Nat := 1

/-! ## Definitions: archive writer (`src/tools/maps/archive.py`) -/

/-- Little-endian 2-byte encoding of `struct` format `H` (values < 2^16 in
all uses). -/
def u16le (n : Nat) : List Nat := [n % 256, n / 256 % 256]

/-- Little-endian 4-byte encoding of `struct` format `I` (values < 2^32 in
all uses). -/
def u32le (n : Nat) : List Nat :=
  [n % 256, n / 256 % 256, n / 65536 % 256, n / 16777216 % 256]

/-- The archive magic `b"TDMAP\x00"` (archive.py line 190). -/
def MAGIC : List Nat := [0x54, 0x44, 0x4D, 0x41, 0x50, 0x00]

/-- Embeds `TileEntry` (archive.py lines 56-67). -/
structure TileEntry where
  zoom : Nat
  x : Nat
  y : Nat
  offset : Nat
  size : Nat
deriving DecidableEq, Repr

/-- The `(zoom, x, y)` tuple the index is sorted and searched by. -/
def tileKey (e : TileEntry) : Nat × Nat × Nat := (e.zoom, e.x, e.y)

/-- Python's `<` on `(zoom, x, y)` tuples: strict lexicographic order. -/
def keyLt (a b : Nat × Nat × Nat) : Prop :=
  a.1 < b.1 ∨ (a.1 = b.1 ∧ (a.2.1 < b.2.1 ∨ (a.2.1 = b.2.1 ∧ a.2.2 < b.2.2)))

instance keyLt.instDecidable (a b : Nat × Nat × Nat) : Decidable (keyLt a b) :=
  inferInstanceAs (Decidable (_ ∨ _))

/-- Python's `<=` on `(zoom, x, y)` tuples: the sort order of the index. -/
def keyLe (a b : Nat × Nat × Nat) : Prop := keyLt a b ∨ a = b

instance keyLe.instDecidable (a b : Nat × Nat × Nat) : Decidable (keyLe a b) :=
  inferInstanceAs (Decidable (_ ∨ _))

/-- Embeds `LabelEntry` (archive.py lines 70-99): the legacy per-tile label
record held by the v3 writer.  `text` is the label's UTF-8 byte string. -/
structure LabelEntryV3 where
  zoom_min : Nat
  zoom_max : Nat
  tile_x : Nat
  tile_y : Nat
  pixel_x : Nat
  pixel_y : Nat
  label_type : Nat
  text : List Nat
  extraction_zoom : Nat
deriving DecidableEq, Repr

/-- Embeds `LabelEntry.pack_v3` (archive.py lines 101-111): five `B` fields
then a length byte then the text truncated to 255 bytes.  (`struct` format
`B` raises for values outside 0..255; all writer-supplied values are in
range, and `% 256` records the byte that is written.) -/
def LabelEntryV3.pack_v3 (l : LabelEntryV3) : List Nat :=
  let text_bytes := l.text.take 255
  [l.pixel_x % 256, l.pixel_y % 256, l.zoom_min % 256, l.zoom_max % 256,
   l.label_type % 256, text_bytes.length] ++ text_bytes

/-- The `(extraction_zoom, tile_x, tile_y)` grouping key of the v3 label
index (archive.py line 267). -/
def groupKey (l : LabelEntryV3) : Nat × Nat × Nat := (l.extraction_zoom, l.tile_x, l.tile_y)

/-- Embeds `TDMAPWriter`'s in-memory state (archive.py lines 192-203). -/
structure TDMAPWriter where
  tiles : List (TileEntry × List Nat)
  labels : List LabelEntryV3
  min_zoom : Nat
  max_zoom : Nat
deriving Repr

/-- The state of a freshly constructed `TDMAPWriter` (archive.py
lines 199-203). -/
def TDMAPWriter.init : TDMAPWriter := ⟨[], [], 255, 0⟩

/-- Embeds `TDMAPWriter.add_tile` (archive.py lines 205-218): appends a
`TileEntry` with `size = len(data)` (offset filled in by `write`) and
widens the zoom range. -/
def TDMAPWriter.add_tile (w : TDMAPWriter) (zoom x y : Nat) (data : List Nat) : TDMAPWriter :=
  { w with tiles := w.tiles ++ [(⟨zoom, x, y, 0, data.length⟩, data)],
           min_zoom := min w.min_zoom zoom,
           max_zoom := max w.max_zoom zoom }

/-- Embeds the offset-assignment loop of `TDMAPWriter.write` (archive.py
lines 278-281): consecutive tile payloads get consecutive offsets starting
at `data_offset`. -/
def assignOffsets : Nat → List (TileEntry × List Nat) → List (TileEntry × List Nat)
  | _, [] => []
  | off, (e, d) :: r => ({ e with offset := off }, d) :: assignOffsets (off + d.length) r

/-- Embeds the 11-byte tile index entry serialization of `write`
(archive.py lines 337-346, `struct` format `<BHHIH`). -/
def packIndexEntry (e : TileEntry) : List Nat :=
  (e.zoom % 256) :: (u16le e.x ++ u16le e.y ++ u32le e.offset ++ u16le e.size)

/-- Embeds the label-region construction of `write` (archive.py
lines 290-311): for each grouping key, in order, an 11-byte index entry
(`<BHHIH`: extraction_zoom, tile_x, tile_y, offset, count) and the
concatenated `pack_v3` records of the key's labels (the `defaultdict`
groups preserve per-key insertion order, i.e. `filter`).  Returns the
label index region and the label data region. -/
def buildLabelRegions (labels : List LabelEntryV3) :
    Nat → List (Nat × Nat × Nat) → List Nat × List Nat
  | _, [] => ([], [])
  | off, k :: ks =>
    let grp := labels.filter fun l => groupKey l = k
    let dat := (grp.map LabelEntryV3.pack_v3).flatten
    let rest := buildLabelRegions labels (off + dat.length) ks
    (((k.1 % 256) :: (u16le k.2.1 ++ u16le k.2.2 ++ u32le off ++ u16le grp.length)) ++ rest.1,
     dat ++ rest.2)

/-- Embeds `TDMAPWriter.write` (archive.py lines 254-360): refuses an empty
tile list, sorts tiles by `(zoom, x, y)`, groups labels by
`(extraction_zoom, tile_x, tile_y)` with sorted keys, computes the region
offsets, and emits header (33 bytes, version `TDMAP_VERSION`), palette
(16 bytes), tile index, tile data, label index, label data.  The returned
value models the bytes written to the output file; the error path models
the `ValueError` raised before the output file is opened. -/
def TDMAPWriter.write (w : TDMAPWriter) : Except String (List Nat) :=
  if w.tiles = [] then .error "No tiles to write"
  else
    let sortedTiles :=
      List.insertionSort (fun a b => keyLe (tileKey a.1) (tileKey b.1)) w.tiles
    let sorted_tile_keys := List.insertionSort keyLe (w.labels.map groupKey).dedup
    let index_offset := 33 + 16
    let data_offset := index_offset + w.tiles.length * 11
    let tilesWithOffsets := assignOffsets data_offset sortedTiles
    let label_index_offset := data_offset + (sortedTiles.map fun td => td.2.length).sum
    let label_data_offset := label_index_offset + sorted_tile_keys.length * 11
    let regions := buildLabelRegions w.labels label_data_offset sorted_tile_keys
    let header := MAGIC ++ [TDMAP_VERSION, COMPRESSION_RLE] ++ u16le TILE_SIZE ++
      [PALETTE_RGB565.length] ++ u32le w.tiles.length ++ u32le index_offset ++
      u32le data_offset ++ [w.min_zoom % 256, w.max_zoom % 256] ++
      u32le label_index_offset ++ u32le sorted_tile_keys.length
    let palette := (PALETTE_RGB565.map u16le).flatten
    .ok (header ++ palette ++
      (tilesWithOffsets.map fun td => packIndexEntry td.1).flatten ++
      (tilesWithOffsets.map fun td => td.2).flatten ++
      regions.1 ++ regions.2)

/-! ## Definitions: archive reader (`src/tools/maps/archive.py`, `TDMAPReader`) -/

/-- Byte access into the archive; all reads performed by the reader are in
range, so the default is never observed on writer-produced files. -/
def byteAt (l : List Nat) (i : Nat) : Nat := l.getD i 0

/-- Little-endian 16-bit read (`struct` format `H`). -/
def u16at (l : List Nat) (i : Nat) : Nat := byteAt l i + 256 * byteAt l (i + 1)

/-- Little-endian 32-bit read (`struct` format `I`). -/
def u32at (l : List Nat) (i : Nat) : Nat :=
  byteAt l i + 256 * byteAt l (i + 1) + 65536 * byteAt l (i + 2) +
    16777216 * byteAt l (i + 3)

/-- Signed 8-bit read (`struct` format `b`). -/
def i8at (l : List Nat) (i : Nat) : Int :=
  if byteAt l i < 128 then (byteAt l i : Int) else (byteAt l i : Int) - 256

/-- The parsed 33-byte header (archive.py lines 15-23, format
`<6sBBHBIIIbbII`). -/
structure TDMAPHeader where
  version : Nat
  compression : Nat
  tile_size : Nat
  palette_count : Nat
  tile_count : Nat
  index_offset : Nat
  data_offset : Nat
  min_zoom : Int
  max_zoom : Int
  label_index_offset : Nat
  label_index_count : Nat
deriving DecidableEq, Repr

/-- Embeds the header portion of `TDMAPReader._read_header` (archive.py
lines 390-411): unpack the 33-byte header (a short file is a `struct`
error), check the magic, then the version gate `version not in (1, 2, 3)`.
This is the validation run by the `TDMAPReader` constructor. -/
def readHeader (data : List Nat) : Except String TDMAPHeader :=
  if data.length < 33 then .error "struct.error: unpack requires a buffer of 33 bytes"
  else if data.take 6 ≠ MAGIC then .error "Invalid TDMAP magic"
  else
    let version := byteAt data 6
    if version ≠ 1 ∧ version ≠ 2 ∧ version ≠ 3 then
      .error ("Unsupported TDMAP version: " ++ toString version)
    else
      .ok { version := version
            compression := byteAt data 7
            tile_size := u16at data 8
            palette_count := byteAt data 10
            tile_count := u32at data 11
            index_offset := u32at data 15
            data_offset := u32at data 19
            min_zoom := i8at data 23
            max_zoom := i8at data 24
            label_index_offset := u32at data 25
            label_index_count := u32at data 29 }

/-- Embeds the tile-index loop of `_read_header` (archive.py lines
417-422): `tile_count` entries of format `<BHHIH` starting at
`index_offset`. -/
def readTileIndex (data : List Nat) (index_offset count : Nat) : List TileEntry :=
  (List.range count).map fun i =>
    let off := index_offset + 11 * i
    ⟨byteAt data off, u16at data (off + 1), u16at data (off + 3),
     u32at data (off + 5), u16at data (off + 9)⟩

/-- The reader state `get_tile_data` operates on: the in-memory tile index
(`self.tiles`) and the archive bytes (`self.archive_path`'s contents, which
`get_tile_data` reopens to read a tile's byte range). -/
structure TDMAPReader where
  tiles : List TileEntry
  archive : List Nat

/-- Embeds the binary-search loop of `TDMAPReader.get_tile_data`
(archive.py lines 476-495).  Python's inclusive bounds `lo, hi` with guard
`lo <= hi` are carried as `lo, hi1 = hi + 1` with guard `lo < hi1`, so
`mid = (lo + hi) // 2 = (lo + hi1 - 1) / 2`.  The loop is driven by a fuel
argument so that the recursion is structural: the window `hi1 - lo`
strictly shrinks every iteration, so with `fuel ≥ hi1 - lo` (as supplied by
`get_tile_data`) the fuel-exhausted row coincides with the loop exiting on
an empty window.  The `none` row of the `get?` match is the out-of-range
access Python could never perform. -/
def bsearchGo (ts : List TileEntry) (target : Nat × Nat × Nat) :
    Nat → Nat → Nat → Option TileEntry
  | 0, _, _ => none
  | fuel + 1, lo, hi1 =>
    if lo < hi1 then
      let mid := (lo + hi1 - 1) / 2
      match ts.get? mid with
      | none => none
      | some e =>
        if tileKey e = target then some e
        else if keyLt (tileKey e) target then bsearchGo ts target fuel (mid + 1) hi1
        else bsearchGo ts target fuel lo mid
    else none

/-- Embeds `TDMAPReader.get_tile_data` (archive.py lines 463-495): binary
search over the index for `(zoom, x, y)` starting from the full window
`lo = 0, hi = len(self.tiles) - 1`; on a hit, read `entry.size` bytes at
`entry.offset` from the archive; `none` models Python's `None`. -/
def get_tile_data (rs : TDMAPReader) (zoom x y : Nat) : Option (List Nat) :=
  match bsearchGo rs.tiles (zoom, x, y) rs.tiles.length 0 rs.tiles.length with
  | some e => some ((rs.archive.drop e.offset).take e.size)
  | none => none

/-! ## Concrete archives used by claims C1 and C4 -/

/-- The writer of claim C1's scenario: one tile `(5, 10, 12) ↦ b"ABC"`. -/
def writerC1 : TDMAPWriter := TDMAPWriter.init.add_tile 5 10 12 [65, 66, 67]

/-- The bytes `writerC1.write()` puts on disk. -/
def archiveC1 : List Nat := writerC1.write.toOption.getD []

/-- The writer of claim C4's scenario: `add_tile(5, 10, 12, b"ABC")` then
`add_tile(5, 10, 13, b"DE")`. -/
def writerC4 : TDMAPWriter :=
  (TDMAPWriter.init.add_tile 5 10 12 [65, 66, 67]).add_tile 5 10 13 [68, 69]

/-- The bytes `writerC4.write()` puts on disk. -/
def archiveC4 : List Nat := writerC4.write.toOption.getD []

/-- The reader state whose index is the tile index `_read_header` loads
from `archiveC4` (2 entries at offset 49), version gate aside. -/
def readerC4 : TDMAPReader := ⟨readTileIndex archiveC4 49 2, archiveC4⟩

/-! ## Definitions: labels and dedup keys (`src/tools/maps/pmtiles_to_tdmap.py`) -/

/-- A label dict as produced by `extract_labels` (pmtiles_to_tdmap.py
lines 494-501): keys `zoom_min, zoom_max, lat, lon, label_type, text`.
Python floats are modelled as exact rationals; `text` is the label's UTF-8
byte string (Python `str` equality coincides with UTF-8 byte equality). -/
structure PLabel where
  text : List Nat
  lat : ℚ
  lon : ℚ
  zoom_min : Nat
  zoom_max : Nat
  label_type : Nat
deriving DecidableEq, Repr

/-- Python's `int()` truncation toward zero. -/
def pyTrunc (q : ℚ) : Int := if 0 ≤ q then ⌊q⌋ else ⌈q⌉

/-- The dedup key `(text, int(lat * 1e6), int(lon * 1e6))` computed at
pmtiles_to_tdmap.py lines 1002-1005 and in `Checkpoint.add_label`
(lines 765-768). -/
def labelKey (l : PLabel) : List Nat × Int × Int :=
  (l.text, pyTrunc (l.lat * 1000000), pyTrunc (l.lon * 1000000))

/-! ## Definitions: checkpoint (`src/tools/maps/pmtiles_to_tdmap.py`, class `Checkpoint`) -/

/-- The `stats` sub-dict of the checkpoint (lines 703-708). -/
structure Stats where
  processed : Nat
  missing : Nat
  failed : Nat
  labels_extracted : Nat
deriving DecidableEq, Repr

/-- The `config` sub-dict stored by `set_config` (lines 779-784): bounds
`(west, south, east, north)` or `None`, and `(min_zoom, max_zoom)` or
`None`. -/
structure CheckpointConfig where
  bounds : Option (ℚ × ℚ × ℚ × ℚ)
  zoom_range : Option (Nat × Nat)
deriving DecidableEq, Repr

/-- The checkpoint's `data` dict (lines 698-711).  Processed-tile keys
`f"{z}/{x}/{y}"` are modelled by the `(z, x, y)` triples they are in
bijection with; `config = none` models the initial empty `{}`. -/
structure CheckpointData where
  version : Nat
  processed_tiles : List (Nat × Nat × Nat)
  labels : List PLabel
  seen_label_keys : List (List Nat × Int × Int)
  stats : Stats
  last_position : Option (Nat × Nat × Nat)
  config : Option CheckpointConfig
deriving DecidableEq, Repr

/-- The `data` dict of a freshly constructed `Checkpoint` (lines 698-711):
version 2, everything empty. -/
def CheckpointData.fresh : CheckpointData :=
  ⟨2, [], [], [], ⟨0, 0, 0, 0⟩, none, none⟩

/-- Embeds `Checkpoint.load` (lines 714-726): returns True exactly when a
well-formed checkpoint file exists on disk; the on-disk state is modelled
by an `Option CheckpointData` where `none` stands for a missing or
unparseable file.  The version field is not examined by `load`. -/
def CheckpointData.load (disk : Option CheckpointData) : Bool := disk.isSome

/-- Embeds `Checkpoint.mark_tile_processed` (lines 739-745). -/
def CheckpointData.mark_tile_processed (cp : CheckpointData) (z x y : Nat) : CheckpointData :=
  { cp with processed_tiles := cp.processed_tiles ++ [(z, x, y)],
            last_position := some (z, x, y),
            stats := { cp.stats with processed := cp.stats.processed + 1 } }

/-- Embeds `Checkpoint.mark_tile_missing` (lines 747-750). -/
def CheckpointData.mark_tile_missing (cp : CheckpointData) : CheckpointData :=
  { cp with stats := { cp.stats with missing := cp.stats.missing + 1 } }

/-- Embeds `Checkpoint.mark_tile_failed` (lines 752-755). -/
def CheckpointData.mark_tile_failed (cp : CheckpointData) : CheckpointData :=
  { cp with stats := { cp.stats with failed := cp.stats.failed + 1 } }

/-- Embeds `Checkpoint.add_label` (lines 762-769): stores the label and its
dedup key, and bumps the label counter. -/
def CheckpointData.add_label (cp : CheckpointData) (l : PLabel) : CheckpointData :=
  { cp with labels := cp.labels ++ [l],
            seen_label_keys := cp.seen_label_keys ++ [labelKey l],
            stats := { cp.stats with labels_extracted := cp.stats.labels_extracted + 1 } }

/-- Embeds `Checkpoint.set_config` (lines 779-784). -/
def CheckpointData.set_config (cp : CheckpointData)
    (bounds : Option (ℚ × ℚ × ℚ × ℚ)) (zoom_range : Option (Nat × Nat)) : CheckpointData :=
  { cp with config := some ⟨bounds, zoom_range⟩ }

/-- Embeds `Checkpoint.validate_config` (lines 786-791): compare the
stored bounds and zoom range (missing config or falsy values read as
`None`, here `Option.bind`) against the current run's. -/
def CheckpointData.validate_config (cp : CheckpointData)
    (bounds : Option (ℚ × ℚ × ℚ × ℚ)) (zoom_range : Option (Nat × Nat)) : Bool :=
  decide (cp.config.bind CheckpointConfig.bounds = bounds ∧
    cp.config.bind CheckpointConfig.zoom_range = zoom_range)

/-- Embeds the resume gating of `convert_pmtiles` (lines 843 and 874-916):
`checkpoint_loaded = resume and checkpoint.load()`; a loaded checkpoint is
honored only when `validate_config` matches, and discarded anyway when its
version is < 2; every refused path continues with a fresh checkpoint
carrying the current config (`set_config`), while the honored path keeps
the loaded state untouched.  Returns the final `resuming` flag and
checkpoint state. -/
def resumeDecision (resume : Bool) (disk : Option CheckpointData)
    (bounds : Option (ℚ × ℚ × ℚ × ℚ)) (zoom_range : Option (Nat × Nat)) :
    Bool × CheckpointData :=
  match if resume then disk else none with
  | none => (false, CheckpointData.fresh.set_config bounds zoom_range)
  | some cp =>
    if cp.validate_config bounds zoom_range then
      if cp.version < 2 then (false, CheckpointData.fresh.set_config bounds zoom_range)
      else (true, cp)
    else (false, CheckpointData.fresh.set_config bounds zoom_range)

/-! ## Definitions: the coordinator's merge loop (`convert_pmtiles`, lines 963-1045) -/

/-- Modelled from the spec: the current-version (v4) `TDMAPWriter` state as
driven by `convert_pmtiles` — `add_label(lat, lon, zoom_min, zoom_max,
label_type, text)` appends one geographic label record and `add_tile`
appends one tile.  The v4 `archive.py` is not under `src/`: the archive.py
present holds the legacy v3 writer, whose `add_label` has a different
(pixel-based) signature and cannot accept the six-argument call
`convert_pmtiles` makes (lines 1008-1015). -/
structure WriterV4 where
  tiles : List ((Nat × Nat × Nat) × List Nat)
  labels : List PLabel
deriving DecidableEq, Repr

/-- Modelled from the spec: a fresh v4 writer (no tiles, no labels). -/
def WriterV4.init : WriterV4 := ⟨[], []⟩

/-- Modelled from the spec: v4 `add_tile` appends the tile. -/
def WriterV4.add_tile (w : WriterV4) (z x y : Nat) (data : List Nat) : WriterV4 :=
  { w with tiles := w.tiles ++ [((z, x, y), data)] }

/-- Modelled from the spec: v4 `add_label` appends the label record. -/
def WriterV4.add_label (w : WriterV4) (l : PLabel) : WriterV4 :=
  { w with labels := w.labels ++ [l] }

/-- One worker result as drained from `imap_unordered`
(`_process_tile_worker`, lines 619-657): status `missing`, `failed`, or
`ok` with the compressed tile bytes and the extracted labels. -/
inductive TileResult where
  | missing (z x y : Nat)
  | failed (z x y : Nat)
  | ok (z x y : Nat) (data : List Nat) (labels : List PLabel)
deriving DecidableEq, Repr

/-- The coordinator state threaded through the result loop: the checkpoint,
the writer and the `seen_labels` set (modelled as a list, membership-
equivalent). -/
structure ConvState where
  cp : CheckpointData
  writer : WriterV4
  seen : List (List Nat × Int × Int)
deriving DecidableEq, Repr

/-- The body of the `for label in result["labels"]` loop (convert_pmtiles
lines 1001-1017): compute the dedup key; if unseen, add it to the seen set,
pass the label to the writer, and record it in the checkpoint; otherwise
discard the label. -/
def applyLabel (st : ConvState) (l : PLabel) : ConvState :=
  if labelKey l ∈ st.seen then st
  else { cp := st.cp.add_label l,
         writer := st.writer.add_label l,
         seen := st.seen ++ [labelKey l] }

/-- The body of the `for result in results_iter` loop (convert_pmtiles
lines 982-1017): missing and failed results only bump counters; an ok
result adds its tile to the writer, marks it processed, and runs the label
dedup loop. -/
def applyResult (st : ConvState) : TileResult → ConvState
  | .missing _ _ _ => { st with cp := st.cp.mark_tile_missing }
  | .failed _ _ _ => { st with cp := st.cp.mark_tile_failed }
  | .ok z x y data labels =>
    labels.foldl applyLabel
      { st with writer := st.writer.add_tile z x y data,
                cp := st.cp.mark_tile_processed z x y }

/-- The whole result loop over a list of drained worker results. -/
def applyResults (st : ConvState) (rs : List TileResult) : ConvState :=
  rs.foldl applyResult st

/-- The coordinator state of a fresh (non-resumed) run (convert_pmtiles
lines 937-943): fresh checkpoint, fresh writer, empty `seen_labels`. -/
def ConvState.fresh : ConvState := ⟨CheckpointData.fresh, WriterV4.init, []⟩

/-- The coordinator state after honoring a resume (convert_pmtiles lines
918-936): the loaded checkpoint is kept, `seen_labels` is restored from
`get_seen_labels()` (the stored dedup keys), and the checkpoint's labels
are re-added to the *fresh* writer one by one.  Note nothing re-adds the
already-processed tiles: the checkpoint stores tile keys, not tile
bytes. -/
def resumeInit (cp : CheckpointData) : ConvState :=
  ⟨cp, cp.labels.foldl WriterV4.add_label WriterV4.init, cp.seen_label_keys⟩

/-- The labels of an ok result (a missing/failed result contributes
none). -/
def okLabels : TileResult → List PLabel
  | .ok _ _ _ _ ls => ls
  | _ => []

/-- All labels the coordinator iterates over, across tiles, in arrival
order. -/
def extractedLabels (rs : List TileResult) : List PLabel :=
  (rs.map okLabels).flatten

/-- First-occurrence-per-key dedup against an initial seen set: the
reference function the label loop is proved equal to. -/
def dedupAgainst (seen : List (List Nat × Int × Int)) : List PLabel → List PLabel
  | [] => []
  | l :: ls =>
    if labelKey l ∈ seen then dedupAgainst seen ls
    else l :: dedupAgainst (seen ++ [labelKey l]) ls

/-- The worker results of claim C9's failing scenario: two ok tiles and no
labels. -/
def resultsC9 : List TileResult :=
  [.ok 5 10 12 [65, 66, 67] [], .ok 5 10 13 [68, 69] []]

/-- Claim C8's counterexample checkpoint: structurally valid (it parses)
but version 1, i.e. not version-compatible. -/
def checkpointV1 : CheckpointData := { CheckpointData.fresh with version := 1 }

/-- A version-2 checkpoint storing a concrete config, for the C8
witness. -/
def checkpointStored : CheckpointData :=
  { CheckpointData.fresh with
      version := 2
      config := some ⟨some (1, 2, 3, 4), some (0, 5)⟩ }

/-! ## Definitions: current-version (v4) label encoding and query
(claims C6, C7).  The v4 `archive.py` is not under `src/`; these are
modelled from the spec (§4.6, §6). -/

/-- `lat_fixed`: fixed-point degrees ×1e6 as a signed 32-bit value
(spec §3), computed as Python's `int(lat * 1e6)`. -/
def latFixed (l : PLabel) : Int := pyTrunc (l.lat * 1000000)

/-- `lon_fixed`: fixed-point degrees ×1e6 as a signed 32-bit value. -/
def lonFixed (l : PLabel) : Int := pyTrunc (l.lon * 1000000)

/-- Modelled from the spec: little-endian two's-complement 32-bit encoding
(`struct` format `i`) used for `lat_fixed`/`lon_fixed` in the v4 label
record. -/
def i32le (n : Int) : List Nat :=
  let u := (n % 4294967296).toNat
  [u % 256, u / 256 % 256, u / 65536 % 256, u / 16777216 % 256]

/-- Decode an unsigned 32-bit value as two's-complement signed. -/
def decodeI32 (u : Nat) : Int :=
  if u < 2147483648 then (u : Int) else (u : Int) - 4294967296

/-- Modelled from the spec (§6): one v4 label record —
`{lat_fixed(i32), lon_fixed(i32), zoom_min(u8), zoom_max(u8),
label_type(u8), text_len(u8), text(text_len bytes)}`, text capped at 255
bytes as in the v2/v3 packers of archive.py. -/
def packLabelV4 (l : PLabel) : List Nat :=
  let text_bytes := l.text.take 255
  i32le (latFixed l) ++ i32le (lonFixed l) ++
    [l.zoom_min % 256, l.zoom_max % 256, l.label_type % 256, text_bytes.length] ++ text_bytes

/-- The v4 sort key order `(zoom_min, lat_fixed, lon_fixed)` (spec §4.6),
as a lexicographic `≤`. -/
def labelSortLe (a b : PLabel) : Prop :=
  a.zoom_min < b.zoom_min ∨
    (a.zoom_min = b.zoom_min ∧
      (latFixed a < latFixed b ∨
        (latFixed a = latFixed b ∧ lonFixed a ≤ lonFixed b)))

instance labelSortLe.instDecidable (a b : PLabel) : Decidable (labelSortLe a b) :=
  inferInstanceAs (Decidable (_ ∨ _))

instance labelSortLe.instIsTotal : IsTotal PLabel labelSortLe :=
  ⟨fun a b => by unfold labelSortLe; omega⟩

instance labelSortLe.instIsTrans : IsTrans PLabel labelSortLe :=
  ⟨fun a b c => by unfold labelSortLe; omega⟩

/-- Modelled from the spec: the label section of the v4 `write()` — sort
the accumulated labels by `(zoom_min, lat_fixed, lon_fixed)` (Python's
stable sort, modelled by the stable `insertionSort`), set the header's
label count to the number of records, and concatenate the packed
records.  Returns `(label_count, label data region)`. -/
def writeLabelsV4 (labels : List PLabel) : Nat × List Nat :=
  let sortedLabels := List.insertionSort labelSortLe labels
  (labels.length, (sortedLabels.map packLabelV4).flatten)

/-- The decoded view of one v4 label record (what a reader can recover
from the bytes). -/
structure LabelRecordV4 where
  lat_fixed : Int
  lon_fixed : Int
  zoom_min : Nat
  zoom_max : Nat
  label_type : Nat
  text : List Nat
deriving DecidableEq, Repr

/-- The record a well-formed label serializes to. -/
def PLabel.record (l : PLabel) : LabelRecordV4 :=
  ⟨latFixed l, lonFixed l, l.zoom_min, l.zoom_max, l.label_type, l.text.take 255⟩

/-- In-range side conditions under which the v4 record is faithful: each
`u8` field fits a byte, the text fits the `text_len` byte, and the fixed-
point coordinates fit a signed 32-bit value (true of any real coordinate:
`|lat_fixed| ≤ 9e7 < 2^31`). -/
def PLabel.wf (l : PLabel) : Prop :=
  l.zoom_min < 256 ∧ l.zoom_max < 256 ∧ l.label_type < 256 ∧ l.text.length ≤ 255 ∧
    -2147483648 ≤ latFixed l ∧ latFixed l < 2147483648 ∧
    -2147483648 ≤ lonFixed l ∧ lonFixed l < 2147483648

/-- Definition taken from the spec's words, for comparison with
`writeLabelsV4`: read exactly `count` records laid out as
`lat_fixed(i32le) · lon_fixed(i32le) · zoom_min(u8) · zoom_max(u8) ·
label_type(u8) · text_len(u8) · text`, consuming the whole region. -/
def parseLabelsV4 : Nat → List Nat → Option (List LabelRecordV4)
  | 0, [] => some []
  | 0, _ :: _ => none
  | n + 1, a0 :: a1 :: a2 :: a3 :: b0 :: b1 :: b2 :: b3 :: zmin :: zmax :: lt :: tlen :: rest =>
    if rest.length < tlen then none
    else
      match parseLabelsV4 n (rest.drop tlen) with
      | some rs => some (⟨decodeI32 (a0 + 256 * a1 + 65536 * a2 + 16777216 * a3),
          decodeI32 (b0 + 256 * b1 + 65536 * b2 + 16777216 * b3),
          zmin, zmax, lt, rest.take tlen⟩ :: rs)
      | none => none
  | _ + 1, _ => none

/-- Modelled from the spec: the v4 reader's
`get_labels_in_bounds(min_lat, max_lat, min_lon, max_lon, zoom)` — a
linear filter by visibility window `zoom_min ≤ zoom ≤ zoom_max` and by
geographic bounds; coordinates are compared in fixed-point micro-degrees
(the reader's degree comparison scaled by 1e6). -/
def get_labels_in_bounds (labels : List LabelRecordV4)
    (min_lat max_lat min_lon max_lon : Int) (zoom : Nat) : List LabelRecordV4 :=
  labels.filter fun l =>
    decide (l.zoom_min ≤ zoom ∧ zoom ≤ l.zoom_max ∧
      min_lat ≤ l.lat_fixed ∧ l.lat_fixed ≤ max_lat ∧
      min_lon ≤ l.lon_fixed ∧ l.lon_fixed ≤ max_lon)

/-- Label "A": zoom_min 6, at `(1.5, 2)` degrees (C6's witness). -/
def labelA : PLabel := ⟨[65], 3 / 2, 2, 6, 14, 0⟩

/-- Label "B": zoom_min 9, at `(5.25, 4)` degrees (C6's witness). -/
def labelB : PLabel := ⟨[66], 21 / 4, 4, 9, 14, 5⟩

/-- The label of claim C7's scenario: "Springfield" (UTF-8 bytes) at
`(39.781, -89.650)`, i.e. fixed-point `(39781000, -89650000)`, visible for
zooms 6–14. -/
def springfield : LabelRecordV4 :=
  ⟨39781000, -89650000, 6, 14, 0,
   [83, 112, 114, 105, 110, 103, 102, 105, 101, 108, 100]⟩

/-! ## Theorems: RLE round-trip (claim C2) -/

theorem takeRun_le (b : Nat) : ∀ l : List Nat, takeRun b l ≤ l.length := by
  intro l
  induction l with
  | nil => simp [takeRun]
  | cons x xs ih =>
    by_cases h : x = b
    · simp [takeRun, h]; omega
    · simp [takeRun, h]

theorem take_takeRun_eq_replicate (b : Nat) :
    ∀ (l : List Nat) (k : Nat), k ≤ takeRun b l → l.take k = List.replicate k b := by
  intro l
  induction l with
  | nil => intro k hk; simp [takeRun] at hk; simp [hk]
  | cons x xs ih =>
    intro k hk
    by_cases h : x = b
    · subst h
      simp [takeRun] at hk
      cases k with
      | zero => simp
      | succ k' => simp [List.replicate_succ, ih k' (by omega)]
    · simp [takeRun, h] at hk
      simp [hk]

theorem rle_decompress_cons_ne (x : Nat) (hx : x ≠ 255) (t : List Nat) :
    rle_decompress (x :: t) = x :: rle_decompress t := by
  match t with
  | [] => simp [rle_decompress]
  | [c] => simp [rle_decompress]
  | c :: v :: r => rw [rle_decompress]; omega

theorem rle_roundtrip_aux :
    ∀ n : Nat, ∀ l : List Nat, l.length ≤ n →
      rle_decompress (rle_compress l) = l := by
  intro n
  induction n with
  | zero =>
    intro l hl
    have : l = [] := by cases l <;> simp_all
    simp [this, rle_compress, rle_decompress]
  | succ n ih =>
    intro l hl
    match l with
    | [] => simp [rle_compress, rle_decompress]
    | b :: rest =>
      rw [rle_compress]
      have hlen : rest.length ≤ n := by simp at hl; omega
      have hkrun : min (takeRun b rest) 254 ≤ takeRun b rest := Nat.min_le_left _ _
      have hdrop : (rest.drop (min (takeRun b rest) 254)).length ≤ n := by
        simp [List.length_drop]; omega
      have ihdrop := ih _ hdrop
      have htake := take_takeRun_eq_replicate b rest _ hkrun
      have hsplit : List.replicate (min (takeRun b rest) 254) b ++
          rest.drop (min (takeRun b rest) 254) = rest := by
        conv_rhs => rw [← List.take_append_drop (min (takeRun b rest) 254) rest]
        rw [htake]
      by_cases hesc : 2 < min (takeRun b rest) 254 + 1 ∨ b = 255
      · simp only [hesc, if_pos]
        show rle_decompress (255 :: (min (takeRun b rest) 254 + 1) :: b ::
          rle_compress (rest.drop (min (takeRun b rest) 254))) = b :: rest
        rw [rle_decompress, ihdrop, List.replicate_succ]
        simp [hsplit]
      · simp only [hesc, if_neg, not_false_iff]
        have hb : b ≠ 255 := by
          intro hb; exact hesc (Or.inr hb)
        by_cases h2 : min (takeRun b rest) 254 + 1 = 2
        · simp only [h2, if_pos]
          show rle_decompress (b :: b :: rle_compress (rest.drop (min (takeRun b rest) 254))) =
            b :: rest
          rw [rle_decompress_cons_ne b hb, rle_decompress_cons_ne b hb, ihdrop]
          have hk1 : min (takeRun b rest) 254 = 1 := by omega
          rw [hk1] at hsplit ⊢
          simp only [List.drop_one] at hsplit ⊢
          simp at hsplit
          exact congrArg (b :: ·) hsplit
        · simp only [h2, if_neg, not_false_iff]
          show rle_decompress (b :: rle_compress (rest.drop (min (takeRun b rest) 254))) =
            b :: rest
          rw [rle_decompress_cons_ne b hb, ihdrop]
          have hk0 : min (takeRun b rest) 254 = 0 := by omega
          rw [hk0] at hsplit
          simp at hsplit
          simp [hk0, hsplit]

/-- Claim C2: RLE round-trip.  For every byte sequence `x`,
`rle_decompress (rle_compress x) = x` (proved here for every list of
naturals, which subsumes byte values); in particular the 7-byte input
`00 00 00 00 01 01 FF` compresses to `FF 04 00 01 01 FF 01 FF` — the
singleton `FF` is escape-encoded as the triplet `FF 01 FF` — and that
compressed form decompresses back to the original 7 bytes. -/
theorem claim_C2_rle_roundtrip :
    (∀ x : List Nat, rle_decompress (rle_compress x) = x) ∧
    rle_compress [0, 0, 0, 0, 1, 1, 255] = [255, 4, 0, 1, 1, 255, 1, 255] ∧
    rle_decompress [255, 4, 0, 1, 1, 255, 1, 255] = [0, 0, 0, 0, 1, 1, 255] := by
  refine ⟨fun x => rle_roundtrip_aux x.length x le_rfl, by simp [rle_compress, takeRun],
    by decide⟩

/-! ## Theorems: 3-bit packing round-trip (claim C3) -/

theorem pack_group_b0 : ∀ a b c : Fin 8,
    ((a.val &&& 0x07) ||| ((b.val &&& 0x07) <<< 3) ||| (((c.val &&& 0x07) &&& 0x03) <<< 6)) =
      a.val + 8 * b.val + 64 * (c.val % 4) := by decide

theorem pack_group_b1 : ∀ c d e f : Fin 8,
    ((((c.val &&& 0x07) >>> 2) &&& 0x01) ||| ((d.val &&& 0x07) <<< 1) |||
        ((e.val &&& 0x07) <<< 4) ||| (((f.val &&& 0x07) &&& 0x01) <<< 7)) =
      c.val / 4 + 2 * d.val + 16 * e.val + 128 * (f.val % 2) := by decide

theorem pack_group_b2 : ∀ f g h : Fin 8,
    ((((f.val &&& 0x07) >>> 1) &&& 0x03) ||| ((g.val &&& 0x07) <<< 2) |||
        ((h.val &&& 0x07) <<< 5)) =
      f.val / 2 + 4 * g.val + 32 * h.val := by decide

theorem unpack_pack_group (p0 p1 p2 p3 p4 p5 p6 p7 : Nat) (t : List Nat)
    (h0 : p0 < 8) (h1 : p1 < 8) (h2 : p2 < 8) (h3 : p3 < 8)
    (h4 : p4 < 8) (h5 : p5 < 8) (h6 : p6 < 8) (h7 : p7 < 8) :
    unpack_3bit_groups (pack_3bit_groups (p0 :: p1 :: p2 :: p3 :: p4 :: p5 :: p6 :: p7 :: t)) =
      p0 :: p1 :: p2 :: p3 :: p4 :: p5 :: p6 :: p7 :: unpack_3bit_groups (pack_3bit_groups t) := by
  have e0 := pack_group_b0 ⟨p0, h0⟩ ⟨p1, h1⟩ ⟨p2, h2⟩
  have e1 := pack_group_b1 ⟨p2, h2⟩ ⟨p3, h3⟩ ⟨p4, h4⟩ ⟨p5, h5⟩
  have e2 := pack_group_b2 ⟨p5, h5⟩ ⟨p6, h6⟩ ⟨p7, h7⟩
  simp only [Fin.val_mk] at e0 e1 e2
  simp only [pack_3bit_groups, unpack_3bit_groups, e0, e1, e2, List.cons.injEq]
  refine ⟨by omega, by omega, by omega, by omega, by omega, by omega, by omega, by omega, trivial⟩

theorem unpack_pack_aligned :
    ∀ n (l : List Nat), l.length ≤ n → l.length % 8 = 0 → (∀ v ∈ l, v < 8) →
      unpack_3bit_groups (pack_3bit_groups l) = l := by
  intro n
  induction n with
  | zero =>
    intro l hn _ _
    have : l = [] := by cases l <;> simp_all
    simp [this, pack_3bit_groups, unpack_3bit_groups]
  | succ n ih =>
    intro l hn hmod hvals
    match l with
    | [] => simp [pack_3bit_groups, unpack_3bit_groups]
    | [a] => simp at hmod
    | [a, b] => simp at hmod
    | [a, b, c] => simp at hmod
    | [a, b, c, d] => simp at hmod
    | [a, b, c, d, e] => simp at hmod
    | [a, b, c, d, e, f] => simp at hmod
    | [a, b, c, d, e, f, g] => simp at hmod
    | p0 :: p1 :: p2 :: p3 :: p4 :: p5 :: p6 :: p7 :: t =>
      have hmem : ∀ v ∈ t, v < 8 := fun v hv => hvals v (by simp [hv])
      have ht : t.length ≤ n := by simp at hn; omega
      have htmod : t.length % 8 = 0 := by simp at hmod ⊢; omega
      rw [unpack_pack_group p0 p1 p2 p3 p4 p5 p6 p7 t
        (hvals p0 (by simp)) (hvals p1 (by simp)) (hvals p2 (by simp))
        (hvals p3 (by simp)) (hvals p4 (by simp)) (hvals p5 (by simp))
        (hvals p6 (by simp)) (hvals p7 (by simp))]
      rw [ih t ht htmod hmem]

/-- Claim C3: 3-bit packing round-trip.  For every sequence of values in
`[0,7]` whose length is a multiple of 8, unpacking `pack_3bit_pixels`'s
output under the sequential 3-bit little-endian layout (value `k` at bits
`3k..3k+2` of the 24-bit group) reproduces the sequence; and for any
length, packing equals packing of the sequence zero-padded to the next
multiple of 8 (the padding is a no-op when the length is already a
multiple of 8). -/
theorem claim_C3_pack3bit_roundtrip (l : List Nat) :
    ((∀ v ∈ l, v < 8) → l.length % 8 = 0 →
      unpack_3bit_groups (pack_3bit_pixels l) = l) ∧
    pack_3bit_pixels l =
      pack_3bit_groups (l ++ List.replicate ((8 - l.length % 8) % 8) 0) := by
  constructor
  · intro hv hmod
    rw [pack_3bit_pixels, if_pos hmod]
    exact unpack_pack_aligned l.length l le_rfl hmod hv
  · rw [pack_3bit_pixels]
    by_cases hmod : l.length % 8 = 0
    · simp [hmod]
    · have : (8 - l.length % 8) % 8 = 8 - l.length % 8 := by omega
      simp [hmod, this]

/-- Witness for C3 at a concrete input: the aligned sequence
`[0,1,2,3,4,5,6,7]` round-trips, and packing `[1,2,3]` equals packing its
zero-padded form `[1,2,3,0,0,0,0,0]`. -/
theorem claim_C3_pack3bit_roundtrip_witness :
    unpack_3bit_groups (pack_3bit_pixels [0, 1, 2, 3, 4, 5, 6, 7]) = [0, 1, 2, 3, 4, 5, 6, 7] ∧
    pack_3bit_pixels [1, 2, 3] = pack_3bit_groups [1, 2, 3, 0, 0, 0, 0, 0] := by
  refine ⟨(claim_C3_pack3bit_roundtrip [0, 1, 2, 3, 4, 5, 6, 7]).1 (by decide) (by decide), ?_⟩
  have h := (claim_C3_pack3bit_roundtrip [1, 2, 3]).2
  simpa using h

/-! ## Theorems: the key order on `(zoom, x, y)` -/

theorem keyLt_irrefl (a : Nat × Nat × Nat) : ¬ keyLt a a := by
  unfold keyLt; omega

theorem keyLt_asymm {a b : Nat × Nat × Nat} (h1 : keyLt a b) (h2 : keyLt b a) : False := by
  unfold keyLt at h1 h2; omega

theorem keyLt_or (a b : Nat × Nat × Nat) : keyLt a b ∨ a = b ∨ keyLt b a := by
  obtain ⟨a1, a2, a3⟩ := a
  obtain ⟨b1, b2, b3⟩ := b
  simp only [keyLt, Prod.mk.injEq]
  omega

/-! ## Theorems: binary-search lookup (claims C1, C4, C10) -/

theorem pairwise_get?_keyLt {ts : List TileEntry}
    (hs : List.Pairwise (fun a b => keyLt (tileKey a) (tileKey b)) ts)
    {i j : Nat} (hij : i < j) {a b : TileEntry}
    (ha : ts.get? i = some a) (hb : ts.get? j = some b) :
    keyLt (tileKey a) (tileKey b) := by
  rw [List.get?_eq_some] at ha hb
  obtain ⟨hi, rfl⟩ := ha
  obtain ⟨hj, rfl⟩ := hb
  exact List.pairwise_iff_get.mp hs ⟨i, hi⟩ ⟨j, hj⟩ hij

theorem bsearchGo_sound (ts : List TileEntry) (t : Nat × Nat × Nat) :
    ∀ fuel lo hi1 e, bsearchGo ts t fuel lo hi1 = some e →
      ∃ i, lo ≤ i ∧ i < hi1 ∧ ts.get? i = some e ∧ tileKey e = t := by
  intro fuel
  induction fuel with
  | zero => intro lo hi1 e h; simp [bsearchGo] at h
  | succ fuel ih =>
    intro lo hi1 e h
    rw [bsearchGo] at h
    by_cases hlt : lo < hi1
    · simp only [if_pos hlt] at h
      cases hg : ts.get? ((lo + hi1 - 1) / 2) with
      | none => rw [hg] at h; simp at h
      | some e0 =>
        rw [hg] at h
        simp only at h
        by_cases he : tileKey e0 = t
        · rw [if_pos he] at h
          simp only [Option.some.injEq] at h
          subst h
          exact ⟨(lo + hi1 - 1) / 2, by omega, by omega, hg, he⟩
        · rw [if_neg he] at h
          by_cases hklt : keyLt (tileKey e0) t
          · rw [if_pos hklt] at h
            obtain ⟨i, h1, h2, h3, h4⟩ := ih _ _ _ h
            exact ⟨i, by omega, h2, h3, h4⟩
          · rw [if_neg hklt] at h
            obtain ⟨i, h1, h2, h3, h4⟩ := ih _ _ _ h
            exact ⟨i, h1, by omega, h3, h4⟩
    · simp [hlt] at h

theorem bsearchGo_complete (ts : List TileEntry) (t : Nat × Nat × Nat)
    (hs : List.Pairwise (fun a b => keyLt (tileKey a) (tileKey b)) ts) :
    ∀ fuel lo hi1, hi1 - lo ≤ fuel → hi1 ≤ ts.length →
      ∀ i e, lo ≤ i → i < hi1 → ts.get? i = some e → tileKey e = t →
      ∃ r, bsearchGo ts t fuel lo hi1 = some r := by
  intro fuel
  induction fuel with
  | zero =>
    intro lo hi1 hfuel _ i e hloi hihi _ _
    omega
  | succ fuel ih =>
    intro lo hi1 hfuel hlen i e hloi hihi hget hkey
    have hlt : lo < hi1 := by omega
    have hmlen : (lo + hi1 - 1) / 2 < ts.length := by omega
    have hg : ts.get? ((lo + hi1 - 1) / 2) =
        some (ts.get ⟨(lo + hi1 - 1) / 2, hmlen⟩) := List.get?_eq_get hmlen
    rw [bsearchGo]
    simp only [if_pos hlt, hg]
    set e0 := ts.get ⟨(lo + hi1 - 1) / 2, hmlen⟩ with he0
    by_cases he : tileKey e0 = t
    · simp [he]
    · rw [if_neg he]
      by_cases hklt : keyLt (tileKey e0) t
      · rw [if_pos hklt]
        rcases Nat.lt_trichotomy i ((lo + hi1 - 1) / 2) with hcmp | hcmp | hcmp
        · exfalso
          exact keyLt_asymm (hkey ▸ pairwise_get?_keyLt hs hcmp hget hg) hklt
        · exfalso
          rw [hcmp] at hget
          rw [hget] at hg
          simp only [Option.some.injEq] at hg
          exact he (hg ▸ hkey)
        · exact ih _ _ (by omega) hlen i e (by omega) hihi hget hkey
      · rw [if_neg hklt]
        rcases Nat.lt_trichotomy i ((lo + hi1 - 1) / 2) with hcmp | hcmp | hcmp
        · exact ih _ _ (by omega) (by omega) i e hloi hcmp hget hkey
        · exfalso
          rw [hcmp] at hget
          rw [hget] at hg
          simp only [Option.some.injEq] at hg
          exact he (hg ▸ hkey)
        · exfalso
          have hk2 := pairwise_get?_keyLt hs hcmp hg hget
          rw [hkey] at hk2
          rcases keyLt_or (tileKey e0) t with h | h | h
          · exact hklt h
          · exact he h
          · exact keyLt_asymm hk2 h

/-- Claim C4 (amended): binary-search lookup correctness.  For every reader
state whose tile index is sorted strictly ascending by `(zoom, x, y)` (as
the writer produces for distinct keys), `get_tile_data` returns the stored
byte range `archive[offset : offset + size]` of the entry holding any
present key, and `none` for every absent key. -/
theorem claim_C4_binary_search_lookup (rs : TDMAPReader)
    (hs : List.Pairwise (fun a b => keyLt (tileKey a) (tileKey b)) rs.tiles)
    (zoom x y : Nat) :
    (∀ e ∈ rs.tiles, tileKey e = (zoom, x, y) →
      get_tile_data rs zoom x y = some ((rs.archive.drop e.offset).take e.size)) ∧
    ((∀ e ∈ rs.tiles, tileKey e ≠ (zoom, x, y)) → get_tile_data rs zoom x y = none) := by
  constructor
  · intro e hmem hkey
    obtain ⟨⟨i, hi⟩, hgeti⟩ := List.mem_iff_get.mp hmem
    have hget : rs.tiles.get? i = some e := by
      rw [List.get?_eq_get hi, hgeti]
    obtain ⟨r, hr⟩ := bsearchGo_complete rs.tiles (zoom, x, y) hs rs.tiles.length 0
      rs.tiles.length (by omega) le_rfl i e (Nat.zero_le _) hi hget hkey
    obtain ⟨j, _, _, hjget, hjkey⟩ := bsearchGo_sound rs.tiles (zoom, x, y) _ _ _ _ hr
    have hij : i = j := by
      rcases Nat.lt_trichotomy i j with hc | hc | hc
      · exact absurd (pairwise_get?_keyLt hs hc hget hjget)
          (by rw [hkey, hjkey]; exact keyLt_irrefl _)
      · exact hc
      · exact absurd (pairwise_get?_keyLt hs hc hjget hget)
          (by rw [hkey, hjkey]; exact keyLt_irrefl _)
    have hre : r = e := by
      rw [← hij] at hjget
      rw [hget] at hjget
      exact (Option.some.injEq _ _ ▸ hjget).symm
    rw [get_tile_data, hr, hre]
  · intro habs
    cases hres : bsearchGo rs.tiles (zoom, x, y) rs.tiles.length 0 rs.tiles.length with
    | none => rw [get_tile_data, hres]
    | some r =>
      obtain ⟨j, _, _, hjget, hjkey⟩ := bsearchGo_sound rs.tiles (zoom, x, y) _ _ _ _ hres
      exact absurd hjkey (habs r (List.get?_mem hjget))

/-- Witness for C4 at the claim's concrete scenario, on the index loaded
from the archive `write()` produced: `b"ABC"` for `(5,10,12)`, `b"DE"` for
`(5,10,13)`, absent for `(5,10,14)`. -/
theorem claim_C4_binary_search_lookup_witness :
    get_tile_data readerC4 5 10 12 = some [65, 66, 67] ∧
    get_tile_data readerC4 5 10 13 = some [68, 69] ∧
    get_tile_data readerC4 5 10 14 = none := by
  have hs : List.Pairwise (fun a b => keyLt (tileKey a) (tileKey b)) readerC4.tiles := by
    decide
  refine ⟨?_, ?_, ?_⟩
  · exact ((claim_C4_binary_search_lookup readerC4 hs 5 10 12).1
      ⟨5, 10, 12, 71, 3⟩ (by decide) (by decide)).trans (by decide)
  · exact ((claim_C4_binary_search_lookup readerC4 hs 5 10 13).1
      ⟨5, 10, 13, 74, 2⟩ (by decide) (by decide)).trans (by decide)
  · exact (claim_C4_binary_search_lookup readerC4 hs 5 10 14).2 (by decide)

/-- Counterexample to C4 as stated: in the concrete scenario, "reading
back" with a `TDMAPReader` is impossible — constructing the reader on the
archive `write()` produced fails at the version gate (the writer stamps
`TDMAP_VERSION = 4`, `_read_header` accepts only versions 1–3), so
`get_tile_data` can never be reached through the constructor. -/
theorem claim_C4_counterexample :
    readHeader archiveC4 = Except.error "Unsupported TDMAP version: 4" := rfl

/-- Claim C1 (code bug, evaluated at the failing input): the writer of a
single tile `(5,10,12) ↦ b"ABC"` successfully produces the archive bytes,
but constructing a `TDMAPReader` on exactly those bytes raises
`ValueError("Unsupported TDMAP version: 4")`: the writer stamps
`TDMAP_VERSION = 4` (config.py) while the reader's version gate accepts
only versions 1–3 (archive.py line 403), so the claimed read-back fidelity
fails at reader construction for every writer-produced archive. -/
theorem claim_C1_version_gate_bug :
    writerC1.write = Except.ok archiveC1 ∧
    readHeader archiveC1 =
      Except.error ("Unsupported TDMAP version: " ++ toString TDMAP_VERSION) :=
  ⟨rfl, rfl⟩

/-- Claim C10: `write()` on a writer with an empty tile list returns the
`ValueError("No tiles to write")` error path; the check precedes the
`open(...)`, so no output bytes are produced and the writer state is
untouched. -/
theorem claim_C10_empty_write_error (w : TDMAPWriter) (h : w.tiles = []) :
    w.write = Except.error "No tiles to write" := by
  rw [TDMAPWriter.write, if_pos h]

/-- Witness for C10: a freshly constructed writer (no `add_tile` calls)
errors on `write()`. -/
theorem claim_C10_empty_write_error_witness :
    TDMAPWriter.init.write = Except.error "No tiles to write" :=
  claim_C10_empty_write_error TDMAPWriter.init rfl

/-! ## Theorems: label deduplication (claim C5) -/

theorem dedupAgainst_append (a b : List PLabel) : ∀ s,
    dedupAgainst s (a ++ b) =
      dedupAgainst s a ++ dedupAgainst (s ++ (dedupAgainst s a).map labelKey) b := by
  induction a with
  | nil => intro s; simp [dedupAgainst]
  | cons l a ih =>
    intro s
    by_cases h : labelKey l ∈ s
    · simp [dedupAgainst, h, ih s]
    · rw [List.cons_append, dedupAgainst, if_neg h, dedupAgainst, if_neg h,
        ih (s ++ [labelKey l])]
      simp [List.append_assoc]

theorem dedupAgainst_filter (k : List Nat × Int × Int) :
    ∀ (ls : List PLabel) (s : List (List Nat × Int × Int)),
      (dedupAgainst s ls).filter (fun l => decide (labelKey l = k)) =
        if k ∈ s then [] else (ls.filter (fun l => decide (labelKey l = k))).take 1 := by
  intro ls
  induction ls with
  | nil => intro s; simp [dedupAgainst]
  | cons l ls ih =>
    intro s
    by_cases hs : labelKey l ∈ s
    · rw [dedupAgainst, if_pos hs, ih s]
      by_cases hk : labelKey l = k
      · rw [if_pos (hk ▸ hs)]
        rw [if_pos (hk ▸ hs)]
      · rw [List.filter_cons_of_neg (by simp [hk])]
    · rw [dedupAgainst, if_neg hs]
      by_cases hk : labelKey l = k
      · rw [List.filter_cons_of_pos (by simp [hk]), ih (s ++ [labelKey l])]
        rw [if_pos (by simp [hk]), if_neg (hk ▸ hs)]
        rw [List.filter_cons_of_pos (by simp [hk])]
        simp
      · rw [List.filter_cons_of_neg (by simp [hk]), ih (s ++ [labelKey l])]
        rw [List.filter_cons_of_neg (by simp [hk])]
        by_cases hks : k ∈ s
        · rw [if_pos (by simp [hks]), if_pos hks]
        · have hnotin : k ∉ s ++ [labelKey l] := by
            simp only [List.mem_append, List.mem_singleton]
            rintro (hkk | hkk)
            · exact hks hkk
            · exact hk hkk.symm
          rw [if_neg hnotin, if_neg hks]

theorem foldl_applyLabel (ls : List PLabel) : ∀ st : ConvState,
    (ls.foldl applyLabel st).writer.labels = st.writer.labels ++ dedupAgainst st.seen ls ∧
    (ls.foldl applyLabel st).writer.tiles = st.writer.tiles ∧
    (ls.foldl applyLabel st).cp.labels = st.cp.labels ++ dedupAgainst st.seen ls ∧
    (ls.foldl applyLabel st).seen = st.seen ++ (dedupAgainst st.seen ls).map labelKey ∧
    (ls.foldl applyLabel st).cp.seen_label_keys =
      st.cp.seen_label_keys ++ (dedupAgainst st.seen ls).map labelKey := by
  induction ls with
  | nil => intro st; simp [dedupAgainst]
  | cons l ls ih =>
    intro st
    simp only [List.foldl_cons]
    by_cases h : labelKey l ∈ st.seen
    · rw [applyLabel, if_pos h]
      obtain ⟨e1, e2, e3, e4, e5⟩ := ih st
      rw [dedupAgainst, if_pos h]
      exact ⟨e1, e2, e3, e4, e5⟩
    · rw [applyLabel, if_neg h]
      obtain ⟨e1, e2, e3, e4, e5⟩ :=
        ih { cp := st.cp.add_label l, writer := st.writer.add_label l,
             seen := st.seen ++ [labelKey l] }
      rw [dedupAgainst, if_neg h]
      refine ⟨?_, ?_, ?_, ?_, ?_⟩
      · rw [e1]; simp [WriterV4.add_label, List.append_assoc]
      · rw [e2]; simp [WriterV4.add_label]
      · rw [e3]; simp [CheckpointData.add_label, List.append_assoc]
      · rw [e4]; simp [List.append_assoc]
      · rw [e5]; simp [CheckpointData.add_label, List.append_assoc]

theorem applyResults_spec (rs : List TileResult) : ∀ st : ConvState,
    (applyResults st rs).writer.labels =
      st.writer.labels ++ dedupAgainst st.seen (extractedLabels rs) ∧
    (applyResults st rs).cp.labels =
      st.cp.labels ++ dedupAgainst st.seen (extractedLabels rs) ∧
    (applyResults st rs).seen =
      st.seen ++ (dedupAgainst st.seen (extractedLabels rs)).map labelKey ∧
    (applyResults st rs).cp.seen_label_keys =
      st.cp.seen_label_keys ++ (dedupAgainst st.seen (extractedLabels rs)).map labelKey := by
  induction rs with
  | nil => intro st; simp [applyResults, extractedLabels, dedupAgainst]
  | cons r rs ih =>
    intro st
    have hcomp : applyResults st (r :: rs) = applyResults (applyResult st r) rs := by
      simp [applyResults]
    rw [hcomp]
    cases r with
    | missing z x y =>
      obtain ⟨e1, e2, e3, e4⟩ := ih (applyResult st (.missing z x y))
      rw [e1, e2, e3, e4]
      simp [applyResult, CheckpointData.mark_tile_missing, extractedLabels, okLabels]
    | failed z x y =>
      obtain ⟨e1, e2, e3, e4⟩ := ih (applyResult st (.failed z x y))
      rw [e1, e2, e3, e4]
      simp [applyResult, CheckpointData.mark_tile_failed, extractedLabels, okLabels]
    | ok z x y data ls =>
      obtain ⟨e1, e2, e3, e4⟩ := ih (applyResult st (.ok z x y data ls))
      rw [e1, e2, e3, e4]
      obtain ⟨f1, _, f3, f4, f5⟩ := foldl_applyLabel ls
        { st with writer := st.writer.add_tile z x y data,
                  cp := st.cp.mark_tile_processed z x y }
      simp only [applyResult]
      rw [f1, f3, f4, f5]
      have hex : extractedLabels (TileResult.ok z x y data ls :: rs) =
          ls ++ extractedLabels rs := by
        simp [extractedLabels, okLabels]
      rw [hex, dedupAgainst_append]
      simp [WriterV4.add_tile, CheckpointData.mark_tile_processed, List.append_assoc]

theorem foldl_writer_add_label (ls : List PLabel) : ∀ w : WriterV4,
    (ls.foldl WriterV4.add_label w).labels = w.labels ++ ls ∧
    (ls.foldl WriterV4.add_label w).tiles = w.tiles := by
  induction ls with
  | nil => intro w; simp
  | cons l ls ih =>
    intro w
    obtain ⟨e1, e2⟩ := ih (w.add_label l)
    refine ⟨?_, ?_⟩
    · rw [List.foldl_cons, e1]
      simp [WriterV4.add_label, List.append_assoc]
    · rw [List.foldl_cons, e2]
      simp [WriterV4.add_label]

/-- Claim C5: label deduplication invariant.  Merging any sequence of
worker results from a fresh coordinator state, the Writer receives, for
each dedup key, exactly the first extracted label with that key (so two
labels with identical `(text, int(lat*1e6), int(lon*1e6))` yield exactly
one stored label, the first, with every later one discarded); the
Checkpoint records exactly the same labels; and the invariant holds across
a resume: restoring the seen-key set and stored labels from the checkpoint
saved after any prefix `rs₁` of the results and then merging the remainder
`rs₂` gives the Writer the same labels as one uninterrupted merge of
`rs₁ ++ rs₂`. -/
theorem claim_C5_label_dedup (rs rs₁ rs₂ : List TileResult) (k : List Nat × Int × Int) :
    (applyResults ConvState.fresh rs).writer.labels.filter
        (fun l => decide (labelKey l = k)) =
      ((extractedLabels rs).filter (fun l => decide (labelKey l = k))).take 1 ∧
    (applyResults ConvState.fresh rs).cp.labels =
      (applyResults ConvState.fresh rs).writer.labels ∧
    (applyResults (resumeInit (applyResults ConvState.fresh rs₁).cp) rs₂).writer.labels =
      (applyResults ConvState.fresh (rs₁ ++ rs₂)).writer.labels := by
  obtain ⟨e1, e2, e3, e4⟩ := applyResults_spec rs ConvState.fresh
  refine ⟨?_, ?_, ?_⟩
  · rw [e1]
    show ([] ++ dedupAgainst [] (extractedLabels rs)).filter _ = _
    rw [List.nil_append, dedupAgainst_filter]
    simp
  · rw [e1, e2]
    rfl
  · obtain ⟨g1, g2, g3, g4⟩ := applyResults_spec rs₁ ConvState.fresh
    obtain ⟨h1, h2, h3, h4⟩ :=
      applyResults_spec rs₂ (resumeInit (applyResults ConvState.fresh rs₁).cp)
    obtain ⟨w1, _⟩ :=
      foldl_writer_add_label (applyResults ConvState.fresh rs₁).cp.labels WriterV4.init
    obtain ⟨f1, f2, f3, f4⟩ := applyResults_spec (rs₁ ++ rs₂) ConvState.fresh
    rw [h1, f1]
    show (resumeInit (applyResults ConvState.fresh rs₁).cp).writer.labels ++
        dedupAgainst (resumeInit (applyResults ConvState.fresh rs₁).cp).seen
          (extractedLabels rs₂) =
      [] ++ dedupAgainst [] (extractedLabels (rs₁ ++ rs₂))
    have hresl : (resumeInit (applyResults ConvState.fresh rs₁).cp).writer.labels =
        (applyResults ConvState.fresh rs₁).cp.labels := by
      rw [resumeInit] at *
      rw [w1]
      simp [WriterV4.init]
    have hress : (resumeInit (applyResults ConvState.fresh rs₁).cp).seen =
        (applyResults ConvState.fresh rs₁).cp.seen_label_keys := rfl
    have hext : extractedLabels (rs₁ ++ rs₂) =
        extractedLabels rs₁ ++ extractedLabels rs₂ := by
      simp [extractedLabels]
    rw [hresl, hress, g2, g4, hext, dedupAgainst_append]
    simp [ConvState.fresh, CheckpointData.fresh]

/-! ## Theorems: checkpoint resume gating (claim C8) -/

/-- Claim C8 (amended): `load()` returns True exactly when a parseable
checkpoint file exists on disk, regardless of its version (the version
compatibility check `version >= 2` happens afterwards in
`convert_pmtiles`); the final `resuming` flag is set iff resume was
requested, a checkpoint loaded, `validate_config` matched and the version
is ≥ 2; `validate_config` returns True iff the stored bounds and zoom
range equal the current run's; and whenever `validate_config` is False the
resume is refused and the run continues with a fresh checkpoint state
carrying the current config. -/
theorem claim_C8_resume_gating (resume : Bool) (disk : Option CheckpointData)
    (bounds : Option (ℚ × ℚ × ℚ × ℚ)) (zoom_range : Option (Nat × Nat)) :
    (∀ cp, CheckpointData.load (some cp) = true) ∧
    ((resumeDecision resume disk bounds zoom_range).1 = true ↔
      resume = true ∧ ∃ cp, disk = some cp ∧
        cp.validate_config bounds zoom_range = true ∧ 2 ≤ cp.version) ∧
    (∀ cp : CheckpointData, cp.validate_config bounds zoom_range = true ↔
      (cp.config.bind CheckpointConfig.bounds = bounds ∧
        cp.config.bind CheckpointConfig.zoom_range = zoom_range)) ∧
    (∀ cp, disk = some cp → cp.validate_config bounds zoom_range = false →
      resumeDecision resume disk bounds zoom_range =
        (false, CheckpointData.fresh.set_config bounds zoom_range)) := by
  refine ⟨fun cp => rfl, ?_, ?_, ?_⟩
  · cases resume with
    | false => simp [resumeDecision]
    | true =>
      cases disk with
      | none => simp [resumeDecision]
      | some cp =>
        rw [resumeDecision]
        by_cases hv : cp.validate_config bounds zoom_range = true
        · by_cases hver : cp.version < 2
          · simp [hv, hver]
          · simp [hv, hver]
            omega
        · simp [hv]
  · intro cp
    rw [CheckpointData.validate_config]
    exact decide_eq_true_iff
  · intro cp hdisk hval
    subst hdisk
    cases resume with
    | false => rfl
    | true =>
      rw [resumeDecision]
      simp [hval]

/-- Witness for C8 at concrete inputs: a matching version-2 checkpoint is
honored (`resuming = true`); a config mismatch on the same checkpoint is
refused with a fresh checkpoint carrying the current config. -/
theorem claim_C8_resume_gating_witness :
    (resumeDecision true (some checkpointStored) (some (1, 2, 3, 4)) (some (0, 5))).1 = true ∧
    resumeDecision true (some checkpointStored) none none =
      (false, CheckpointData.fresh.set_config none none) := by
  constructor
  · exact ((claim_C8_resume_gating true (some checkpointStored)
        (some (1, 2, 3, 4)) (some (0, 5))).2.1).mpr
      ⟨rfl, checkpointStored, rfl, by decide, by decide⟩
  · exact (claim_C8_resume_gating true (some checkpointStored) none none).2.2.2
      checkpointStored rfl (by decide)

/-- Counterexample to C8 as stated: a structurally valid version-1
checkpoint is NOT version-compatible (convert_pmtiles discards it,
lines 909-916), yet `load()` returns True for it — so `load()` does not
return True "only when a valid, version-compatible checkpoint exists". -/
theorem claim_C8_counterexample :
    CheckpointData.load (some checkpointV1) = true ∧
    checkpointV1.version < 2 ∧
    resumeDecision true (some checkpointV1) none none =
      (false, CheckpointData.fresh.set_config none none) := by
  refine ⟨rfl, by decide, by decide⟩

/-! ## Theorems: resumability (claim C9) -/

/-- Claim C9 (code bug, evaluated at the failing input): with two available
tiles, an uninterrupted run hands the writer both tiles, but a run
interrupted after the first tile (checkpoint saved) and resumed hands the
fresh writer only the remaining tile — the checkpoint stores processed
tile keys and labels but no tile bytes, and `convert_pmtiles` filters
processed tiles out of the work list without re-adding their data — so the
resumed archive cannot be byte-identical to the uninterrupted one. -/
theorem claim_C9_resume_loses_tiles :
    ((applyResults (resumeInit (applyResults ConvState.fresh (resultsC9.take 1)).cp)
        (resultsC9.drop 1)).writer.tiles.map Prod.fst) = [(5, 10, 13)] ∧
    ((applyResults ConvState.fresh resultsC9).writer.tiles.map Prod.fst) =
      [(5, 10, 12), (5, 10, 13)] := by
  refine ⟨by decide, by decide⟩

/-! ## Theorems: current-version (v4) label encoding (claim C6) -/

theorem decodeI32_i32le (n : Int) (h1 : -2147483648 ≤ n) (h2 : n < 2147483648) :
    decodeI32 ((n % 4294967296).toNat) = n := by
  unfold decodeI32
  omega

theorem u32_bytes_recombine (u : Nat) (hu : u < 4294967296) :
    u % 256 + 256 * (u / 256 % 256) + 65536 * (u / 65536 % 256) +
      16777216 * (u / 16777216 % 256) = u := by
  omega

theorem parseLabelsV4_pack (ls : List PLabel) (hwf : ∀ l ∈ ls, l.wf) :
    parseLabelsV4 ls.length ((ls.map packLabelV4).flatten) =
      some (ls.map PLabel.record) := by
  induction ls with
  | nil => simp [parseLabelsV4]
  | cons l ls ih =>
    obtain ⟨h1, h2, h3, h4, h5, h6, h7, h8⟩ := hwf l (by simp)
    have htb : l.text.take 255 = l.text := List.take_of_length_le h4
    have htlen : (l.text.take 255).length = l.text.length := by rw [htb]
    simp only [List.map_cons, List.flatten_cons, List.length_cons]
    rw [packLabelV4]
    simp only [i32le]
    have hrw : ∀ t : List Nat,
        ([((latFixed l % 4294967296).toNat) % 256,
          ((latFixed l % 4294967296).toNat) / 256 % 256,
          ((latFixed l % 4294967296).toNat) / 65536 % 256,
          ((latFixed l % 4294967296).toNat) / 16777216 % 256] ++
         [((lonFixed l % 4294967296).toNat) % 256,
          ((lonFixed l % 4294967296).toNat) / 256 % 256,
          ((lonFixed l % 4294967296).toNat) / 65536 % 256,
          ((lonFixed l % 4294967296).toNat) / 16777216 % 256] ++
         [l.zoom_min % 256, l.zoom_max % 256, l.label_type % 256,
          (l.text.take 255).length] ++ l.text.take 255) ++ t =
        ((latFixed l % 4294967296).toNat) % 256 ::
        ((latFixed l % 4294967296).toNat) / 256 % 256 ::
        ((latFixed l % 4294967296).toNat) / 65536 % 256 ::
        ((latFixed l % 4294967296).toNat) / 16777216 % 256 ::
        ((lonFixed l % 4294967296).toNat) % 256 ::
        ((lonFixed l % 4294967296).toNat) / 256 % 256 ::
        ((lonFixed l % 4294967296).toNat) / 65536 % 256 ::
        ((lonFixed l % 4294967296).toNat) / 16777216 % 256 ::
        (l.zoom_min % 256) :: (l.zoom_max % 256) :: (l.label_type % 256) ::
        (l.text.take 255).length :: (l.text.take 255 ++ t) := by
      intro t; simp
    rw [hrw]
    rw [parseLabelsV4]
    have hnolt : ¬ ((l.text.take 255 ++ (ls.map packLabelV4).flatten).length <
        (l.text.take 255).length) := by
      simp
      omega
    rw [if_neg hnolt]
    rw [List.drop_left, List.take_left]
    rw [ih (fun x hx => hwf x (by simp [hx]))]
    have hu1 : ((latFixed l % 4294967296).toNat) < 4294967296 := by omega
    have hu2 : ((lonFixed l % 4294967296).toNat) < 4294967296 := by omega
    rw [u32_bytes_recombine _ hu1, u32_bytes_recombine _ hu2,
      decodeI32_i32le _ h5 h6, decodeI32_i32le _ h7 h8]
    simp only [PLabel.record, Nat.mod_eq_of_lt h1, Nat.mod_eq_of_lt h2,
      Nat.mod_eq_of_lt h3]

/-- Claim C6: current-version label encoding (the v4 writer is modelled
from the spec; the archive.py under src/ holds the legacy v3 writer).  On
write, the label records are sorted by `(zoom_min, lat_fixed, lon_fixed)`
(a permutation of the accumulated labels, pairwise ordered), the header's
label count equals the number of records M, and the label data region is
exactly M variable-length records laid out as `lat_fixed(i32le) ·
lon_fixed(i32le) · zoom_min(u8) · zoom_max(u8) · label_type(u8) ·
text_len(u8) · text` — parsing the region with the spec layout returns
precisely the sorted records. -/
theorem claim_C6_v4_label_encoding (labels : List PLabel) (hwf : ∀ l ∈ labels, l.wf) :
    (writeLabelsV4 labels).1 = labels.length ∧
    parseLabelsV4 labels.length (writeLabelsV4 labels).2 =
      some ((List.insertionSort labelSortLe labels).map PLabel.record) ∧
    List.Pairwise labelSortLe (List.insertionSort labelSortLe labels) ∧
    (List.insertionSort labelSortLe labels).Perm labels := by
  refine ⟨rfl, ?_, List.sorted_insertionSort _ _, List.perm_insertionSort _ _⟩
  have hlen : (List.insertionSort labelSortLe labels).length = labels.length :=
    (List.perm_insertionSort labelSortLe labels).length_eq
  show parseLabelsV4 labels.length
      (((List.insertionSort labelSortLe labels).map packLabelV4).flatten) = _
  rw [← hlen]
  exact parseLabelsV4_pack _ fun x hx =>
    hwf x ((List.perm_insertionSort labelSortLe labels).mem_iff.mp hx)

/-- Witness for C6 at a concrete input: two labels added in reverse sort
order come out sorted by `(zoom_min, lat_fixed, lon_fixed)`, with count 2
and a region parsing to exactly the two records; label "A"'s fixed-point
latitude is `1.5 × 1e6`. -/
theorem claim_C6_v4_label_encoding_witness :
    (writeLabelsV4 [labelB, labelA]).1 = 2 ∧
    parseLabelsV4 2 (writeLabelsV4 [labelB, labelA]).2 =
      some [labelA.record, labelB.record] ∧
    labelA.record.lat_fixed = 1500000 := by
  have hwfA : labelA.wf := by
    norm_num [PLabel.wf, labelA, latFixed, lonFixed, pyTrunc]
  have hwfB : labelB.wf := by
    norm_num [PLabel.wf, labelB, latFixed, lonFixed, pyTrunc]
  have h := claim_C6_v4_label_encoding [labelB, labelA] (by
    intro l hl
    simp only [List.mem_cons, List.not_mem_nil, or_false] at hl
    rcases hl with rfl | rfl
    · exact hwfB
    · exact hwfA)
  have hnle : ¬ labelSortLe labelB labelA := by
    simp [labelSortLe, labelB, labelA]
  have hsort : List.insertionSort labelSortLe [labelB, labelA] = [labelA, labelB] := by
    simp [List.insertionSort, List.orderedInsert, hnle]
  refine ⟨h.1, ?_, ?_⟩
  · show parseLabelsV4 [labelB, labelA].length (writeLabelsV4 [labelB, labelA]).2 =
      some [labelA.record, labelB.record]
    rw [h.2.1, hsort]
    simp
  · show latFixed labelA = 1500000
    norm_num [labelA, latFixed, pyTrunc]

/-! ## Theorems: label visibility query (claim C7) -/

/-- Claim C7: label visibility (the v4 reader's `get_labels_in_bounds` is
modelled from the spec; coordinates are compared in micro-degrees).  For
any loaded label store containing the "Springfield" record at
`(39.781, -89.650)` with zooms 6–14: every bounding box containing the
point returns the label at zoom 8, and no query at zoom 15 returns it
(the filter enforces `zoom_min ≤ zoom ≤ zoom_max` and the geographic
bounds). -/
theorem claim_C7_label_visibility (labels : List LabelRecordV4)
    (hmem : springfield ∈ labels) (min_lat max_lat min_lon max_lon : Int) :
    (min_lat ≤ 39781000 → 39781000 ≤ max_lat →
      min_lon ≤ -89650000 → -89650000 ≤ max_lon →
      springfield ∈ get_labels_in_bounds labels min_lat max_lat min_lon max_lon 8) ∧
    springfield ∉ get_labels_in_bounds labels min_lat max_lat min_lon max_lon 15 := by
  constructor
  · intro h1 h2 h3 h4
    rw [get_labels_in_bounds]
    refine List.mem_filter.mpr ⟨hmem, ?_⟩
    apply decide_eq_true
    exact ⟨by decide, by decide, h1, h2, h3, h4⟩
  · intro hin
    have h := (List.mem_filter.mp hin).2
    rw [decide_eq_true_iff] at h
    exact absurd h.2.1 (by decide)

/-- Witness for C7 at a concrete bounding box containing the point. -/
theorem claim_C7_label_visibility_witness :
    springfield ∈
      get_labels_in_bounds [springfield] 39000000 40000000 (-90000000) (-89000000) 8 ∧
    springfield ∉
      get_labels_in_bounds [springfield] 39000000 40000000 (-90000000) (-89000000) 15 :=
  ⟨(claim_C7_label_visibility [springfield] (by decide)
      39000000 40000000 (-90000000) (-89000000)).1
      (by decide) (by decide) (by decide) (by decide),
   (claim_C7_label_visibility [springfield] (by decide)
      39000000 40000000 (-90000000) (-89000000)).2⟩

end TDMap
